import Mathlib

/-!
# Verification of the ascii1090 tracking / projection / rendering core

Shallow embedding of the Go sources of `ascii1090`:

* `internal/adsb/aircraft.go` and the tracker file — the `Aircraft` record,
  `Tracker.Update`, `Tracker.PruneStale`, `Aircraft.IsStale`,
  `Aircraft.CardinalDirection`;
* the geo projection file — `Projection`, `calculateScale`, `Project`,
  `Unproject`;
* the render canvas file — `Canvas`, `Set`, `Get`;
* the map renderer file — `MapRenderer.DrawLine` (Bresenham) and
  `renderCitiesAndAirports` (label collision logic);
* the map view file — `MapView.SetCenterFromFirstAircraft`,
  `MapView.CenterOnAircraft`.

Go `time.Time`/`time.Duration` values are modelled as integer nanoseconds,
Go `int` as `ℤ`, `float64` as `ℝ` where the code computes with it
(the projection) and as `ℚ` where the code merely stores and compares it
(tracker coordinates).  The Go map keyed by ICAO string is modelled as an
association list.
-/

namespace Ascii1090

/-- `internal/adsb/aircraft.go`: the `Aircraft` struct.  `Latitude` and
`Longitude` are pointers in Go (`nil` when the position is not locked),
modelled as `Option ℚ`.  `LastSeen` is in nanoseconds since an epoch. -/
structure Aircraft where
  ICAO : String
  FlightNumber : String
  Latitude : Option ℚ
  Longitude : Option ℚ
  Altitude : ℤ
  Speed : ℤ
  Heading : ℤ
  Track : ℤ
  VerticalRate : ℤ
  LastSeen : ℤ
  deriving DecidableEq, Repr

/-- `Aircraft.PositionLocked`: both coordinate pointers non-nil. -/
def Aircraft.PositionLocked (a : Aircraft) : Bool :=
  a.Latitude.isSome && a.Longitude.isSome

/-- One nanosecond-count per second (Go `time.Second`). -/
def nsPerSecond : ℤ := 1000000000

/-- `Aircraft.IsStale`: `time.Since(a.LastSeen) >= 60*time.Second`, with the
wall-clock reading `time.Now()` made an explicit parameter `now`. -/
def Aircraft.IsStale (a : Aircraft) (now : ℤ) : Bool :=
  decide (60 * nsPerSecond ≤ now - a.LastSeen)

/-- The field-wise merge performed by `Tracker.Update` on an existing entry:
`LastSeen` is copied unconditionally, a string field only when the incoming
one is non-empty, a pointer field only when non-nil, a numeric field only
when non-zero (straight transcription of the `if` chain in the Go code). -/
def mergeAircraft (existing incoming : Aircraft) : Aircraft :=
  { existing with
    LastSeen := incoming.LastSeen
    FlightNumber :=
      if incoming.FlightNumber ≠ "" then incoming.FlightNumber
      else existing.FlightNumber
    Latitude :=
      if incoming.Latitude.isSome then incoming.Latitude else existing.Latitude
    Longitude :=
      if incoming.Longitude.isSome then incoming.Longitude
      else existing.Longitude
    Altitude :=
      if incoming.Altitude ≠ 0 then incoming.Altitude else existing.Altitude
    Speed := if incoming.Speed ≠ 0 then incoming.Speed else existing.Speed
    Heading :=
      if incoming.Heading ≠ 0 then incoming.Heading else existing.Heading
    Track := if incoming.Track ≠ 0 then incoming.Track else existing.Track
    VerticalRate :=
      if incoming.VerticalRate ≠ 0 then incoming.VerticalRate
      else existing.VerticalRate }

/-- The `Tracker` struct: the Go `map[string]*Aircraft` keyed by ICAO hex is
modelled as an association list; the mutex is irrelevant to the functional
behaviour.  `timeout` is in nanoseconds. -/
structure Tracker where
  aircraft : List (String × Aircraft)
  timeout : ℤ
  deriving DecidableEq, Repr

/-- Lookup in the modelled Go map (`t.aircraft[icao]`). -/
def lookupAC (l : List (String × Aircraft)) (k : String) : Option Aircraft :=
  (l.find? (fun e => e.1 = k)).map (·.2)

/-- Replace the entry stored under key `k` (in-place mutation of the mapped
`*Aircraft` in Go). -/
def setAC (l : List (String × Aircraft)) (k : String) (v : Aircraft) :
    List (String × Aircraft) :=
  l.map (fun e => if e.1 = k then (k, v) else e)

/-- `NewTracker`: a zero timeout defaults to 60 seconds. -/
def NewTracker (timeout : ℤ) : Tracker :=
  { aircraft := []
    timeout := if timeout = 0 then 60 * nsPerSecond else timeout }

/-- `Tracker.Update`.  The Go receiver takes an `*Aircraft`, so the argument
is an `Option Aircraft` (`none` = nil pointer).  A nil pointer or an empty
ICAO is a silent no-op; an unseen key inserts the record; an existing key
merges field-wise via `mergeAircraft`. -/
def Tracker.Update (t : Tracker) (ac : Option Aircraft) : Tracker :=
  match ac with
  | none => t
  | some a =>
    if a.ICAO = "" then t
    else
      match lookupAC t.aircraft a.ICAO with
      | none => { t with aircraft := t.aircraft ++ [(a.ICAO, a)] }
      | some existing =>
        { t with aircraft := setAC t.aircraft a.ICAO (mergeAircraft existing a) }

/-- `Tracker.PruneStale`: delete every stale entry, return the new tracker
together with the number of entries removed.  The wall clock read inside
`Aircraft.IsStale` is the explicit parameter `now`. -/
def Tracker.PruneStale (t : Tracker) (now : ℤ) : Tracker × ℕ :=
  ({ t with aircraft := t.aircraft.filter (fun e => ! e.2.IsStale now) },
   (t.aircraft.filter (fun e => e.2.IsStale now)).length)

/-! ## Canvas (`render` package) -/

/-- A canvas cell: a display rune plus a `tcell.Style`.  The style is an
opaque token, modelled as an integer. -/
structure Cell where
  char : Char
  style : ℤ
  deriving DecidableEq, Repr

/-- The blank cell (`' '` with `tcell.StyleDefault`, modelled as style 0). -/
def blankCell : Cell := ⟨' ', 0⟩

/-- The `Canvas` struct: a `width × height` grid of cells addressed by
zero-based `(x, y)` from the top-left.  The backing `[][]Cell` is modelled
as a total function; only indices inside the bounds are ever read. -/
structure Canvas where
  width : ℤ
  height : ℤ
  cells : ℤ → ℤ → Cell

/-- `NewCanvas`: every cell a space with the default style. -/
def NewCanvas (width height : ℤ) : Canvas :=
  { width := width, height := height, cells := fun _ _ => blankCell }

/-- `Canvas.Set`: writes the cell when `0 ≤ x < width` and
`0 ≤ y < height`, otherwise leaves the canvas untouched. -/
def Canvas.Set (c : Canvas) (x y : ℤ) (char : Char) (style : ℤ) : Canvas :=
  if 0 ≤ x ∧ x < c.width ∧ 0 ≤ y ∧ y < c.height then
    { c with cells := fun i j => if i = x ∧ j = y then ⟨char, style⟩ else c.cells i j }
  else c

/-- `Canvas.Get`: in-bounds cell, else a blank default cell. -/
def Canvas.Get (c : Canvas) (x y : ℤ) : Cell :=
  if 0 ≤ x ∧ x < c.width ∧ 0 ≤ y ∧ y < c.height then c.cells x y
  else blankCell

/-! ## `MapRenderer.DrawLine` (Bresenham) -/

/-- The body of the Bresenham loop of `MapRenderer.DrawLine`, with explicit
fuel.  `dx`, `dy`, `sx`, `sy` are loop-invariant; `x0, y0, err` are the
mutable loop variables.  The Go loop always terminates within
`dx + dy + 1` iterations, which is the fuel `DrawLine` supplies. -/
def bresenhamLoop (fuel : ℕ) (c : Canvas) (x0 y0 x1 y1 dx dy sx sy err : ℤ)
    (char : Char) (style : ℤ) : Canvas :=
  match fuel with
  | 0 => c
  | fuel + 1 =>
    let c1 := c.Set x0 y0 char style
    if x0 = x1 ∧ y0 = y1 then c1
    else
      let e2 := 2 * err
      let err1 := if e2 > -dy then err - dy else err
      let x0n := if e2 > -dy then x0 + sx else x0
      let err2 := if e2 < dx then err1 + dx else err1
      let y0n := if e2 < dx then y0 + sy else y0
      bresenhamLoop fuel c1 x0n y0n x1 y1 dx dy sx sy err2 char style

/-- `MapRenderer.DrawLine`: Bresenham integer line rasterization from
`(x0, y0)` to `(x1, y1)`. -/
def DrawLine (c : Canvas) (x0 y0 x1 y1 : ℤ) (char : Char) (style : ℤ) :
    Canvas :=
  let dx := |x1 - x0|
  let dy := |y1 - y0|
  let sx : ℤ := if x0 < x1 then 1 else -1
  let sy : ℤ := if y0 < y1 then 1 else -1
  bresenhamLoop (dx.toNat + dy.toNat + 1) c x0 y0 x1 y1 dx dy sx sy (dx - dy)
    char style

/-! ## `renderCitiesAndAirports` (label collision logic)

The renderer first projects every visible city and airport to grid
coordinates and then decides what to draw from those integer positions
alone.  The model below takes the already-projected grid position of each
point feature and records the draw calls the Go code issues. -/

/-- A projected point feature (city or airport): grid position and name. -/
structure PointFeat where
  pos : ℤ × ℤ
  name : String
  deriving DecidableEq, Repr

/-- A draw call issued to the canvas. -/
inductive DrawOp where
  | set (x y : ℤ) (char : Char)
  | text (x y : ℤ) (s : String)
  deriving DecidableEq, Repr

/-- The `skipCity` flag computed inside `renderCitiesAndAirports` for a
city at grid position `c` against the projected airport positions:
any airport on the same row within 5 columns, or within one row and
3 columns, suppresses the city label. -/
def skipCity (c : ℤ × ℤ) (airportPositions : List (ℤ × ℤ)) : Bool :=
  airportPositions.any (fun a =>
    (a.2 = c.2 && |a.1 - c.1| ≤ 5) || (|a.2 - c.2| ≤ 1 && |a.1 - c.1| ≤ 3))

/-- The draw calls of `renderCitiesAndAirports`: each visible city whose
name is non-empty, that is not suppressed by an airport, and whose label
fits before the right edge gets a `DrawText` at its position; then every
visible airport gets a `'@'` symbol unconditionally plus a `DrawText` one
column right when its name is non-empty and fits. -/
def renderCitiesAndAirports (cities airports : List PointFeat) (width : ℤ) :
    List DrawOp :=
  let airportPositions := airports.map (·.pos)
  let cityOps := (cities.map (fun city =>
    if city.name = "" then []
    else if skipCity city.pos airportPositions then []
    else if city.pos.1 < width - (city.name.length : ℤ) - 1 then
      [DrawOp.text city.pos.1 city.pos.2 city.name]
    else [])).flatten
  let airportOps := (airports.map (fun ap =>
    DrawOp.set ap.pos.1 ap.pos.2 '@' ::
      (if ap.name ≠ "" ∧ ap.pos.1 < width - (ap.name.length : ℤ) - 1 then
        [DrawOp.text (ap.pos.1 + 1) ap.pos.2 ap.name]
      else []))).flatten
  cityOps ++ airportOps

/-! ## `Aircraft.CardinalDirection` -/

/-- The direction-angle derivation and normalization performed at the top
of `Aircraft.CardinalDirection`: take `Track`, fall back to `Heading` when
`Track` is zero and `Heading` is not, then `d % 360` (Go `%` truncates
toward zero, i.e. `Int.tmod`) with `+360` when negative. -/
def normalizeDirection (track heading : ℤ) : ℤ :=
  let direction := if track = 0 ∧ heading ≠ 0 then heading else track
  let d := direction.tmod 360
  if d < 0 then d + 360 else d

/-- `Aircraft.CardinalDirection` as a function of the `Track` and `Heading`
fields: the `switch` over the eight 45°-wide arcs. -/
def cardinalDirection (track heading : ℤ) : Char :=
  let d := normalizeDirection track heading
  if 338 ≤ d ∨ d < 23 then '^'
  else if 23 ≤ d ∧ d < 68 then '┐'
  else if 68 ≤ d ∧ d < 113 then '>'
  else if 113 ≤ d ∧ d < 158 then '┘'
  else if 158 ≤ d ∧ d < 203 then 'v'
  else if 203 ≤ d ∧ d < 248 then '└'
  else if 248 ≤ d ∧ d < 293 then '<'
  else if 293 ≤ d ∧ d < 338 then '┌'
  else '·'

/-- The octant map as the specification words it: the angle comes from
`track` if non-zero else `heading`, is normalized into `[0, 360)` by the
mathematical modulus, and each 45°-wide arc with integer-degree boundaries
`[338,360)∪[0,23)`, `[23,68)`, `[68,113)`, `[113,158)`, `[158,203)`,
`[203,248)`, `[248,293)`, `[293,338)` maps to its fixed symbol. -/
def cardinalDirectionSpec (track heading : ℤ) : Char :=
  let d := (if track ≠ 0 then track else heading) % 360
  if 338 ≤ d then '^'
  else if d < 23 then '^'
  else if d < 68 then '┐'
  else if d < 113 then '>'
  else if d < 158 then '┘'
  else if d < 203 then 'v'
  else if d < 248 then '└'
  else if d < 293 then '<'
  else '┌'

/-! ## Projection (`geo` package)

The projection computes with `float64`; the model uses `ℝ`.  Go's
`int(f)` conversion truncates toward zero, modelled by `truncToInt`. -/

/-- Go's `int(f)` conversion of a `float64`: truncation toward zero. -/
noncomputable def truncToInt (x : ℝ) : ℤ :=
  if 0 ≤ x then ⌊x⌋ else ⌈x⌉

/-- The `Projection` struct. -/
structure Projection where
  centerLat : ℝ
  centerLon : ℝ
  radiusMiles : ℝ
  screenWidth : ℤ
  screenHeight : ℤ
  aspect : ℝ
  scaleX : ℝ
  scaleY : ℝ

/-- `calculateScale`: the pixels-per-degree factors.  One degree of
latitude is 69 miles, one degree of longitude `69·cos(centerLat)` miles;
the smaller of the two axis scales (compared as `scaleX < scaleY`) is
applied to both axes through the aspect ratio. -/
noncomputable def calculateScale (centerLat radiusMiles : ℝ)
    (screenWidth screenHeight : ℤ) (aspect : ℝ) : ℝ × ℝ :=
  let milesPerDegreeLat : ℝ := 69
  let milesPerDegreeLon : ℝ := 69 * Real.cos (centerLat * Real.pi / 180)
  let degreesLat := radiusMiles / milesPerDegreeLat
  let degreesLon := radiusMiles / milesPerDegreeLon
  let totalDegreesLat := degreesLat * 2
  let totalDegreesLon := degreesLon * 2
  let effectiveHeight := (screenHeight : ℝ) * aspect
  let scaleY := effectiveHeight / totalDegreesLat
  let scaleX := (screenWidth : ℝ) / totalDegreesLon
  if scaleX < scaleY then (scaleX, scaleX / aspect)
  else (scaleY * aspect, scaleY)

/-- `NewProjection`: store the configuration and run `calculateScale`. -/
noncomputable def NewProjection (centerLat centerLon radiusMiles : ℝ)
    (screenWidth screenHeight : ℤ) (aspect : ℝ) : Projection :=
  let s := calculateScale centerLat radiusMiles screenWidth screenHeight aspect
  { centerLat := centerLat
    centerLon := centerLon
    radiusMiles := radiusMiles
    screenWidth := screenWidth
    screenHeight := screenHeight
    aspect := aspect
    scaleX := s.1
    scaleY := s.2 }

/-- `Projection.Project`: lat/lon to screen coordinates, `(0,0)` top-left,
with screen `y` growing downward.  Go's `screenWidth / 2` integer division
truncates toward zero (`Int.tdiv`). -/
noncomputable def Projection.Project (p : Projection) (lat lon : ℝ) : ℤ × ℤ :=
  let deltaLat := lat - p.centerLat
  let deltaLon := lon - p.centerLon
  let x := truncToInt (deltaLon * p.scaleX) + p.screenWidth.tdiv 2
  let y := truncToInt (-deltaLat * p.scaleY) + p.screenHeight.tdiv 2
  (x, y)

/-- `Projection.Unproject`: screen coordinates back to lat/lon. -/
noncomputable def Projection.Unproject (p : Projection) (x y : ℤ) : ℝ × ℝ :=
  let x1 := x - p.screenWidth.tdiv 2
  let y1 := y - p.screenHeight.tdiv 2
  let deltaLon := (x1 : ℝ) / p.scaleX
  let deltaLat := -(y1 : ℝ) / p.scaleY
  (p.centerLat + deltaLat, p.centerLon + deltaLon)

/-- `Projection.UpdateCenter`: move the center and recompute the scale. -/
noncomputable def Projection.UpdateCenter (p : Projection) (lat lon : ℝ) :
    Projection :=
  let s := calculateScale lat p.radiusMiles p.screenWidth p.screenHeight p.aspect
  { p with centerLat := lat, centerLon := lon, scaleX := s.1, scaleY := s.2 }

/-! ## `MapView` (`ui` package)

Only the state that `SetCenterFromFirstAircraft` / `CenterOnAircraft`
read or write is modelled: the projection and the `centerSet` flag (the
renderer and canvas fields alias the same projection and are untouched by
these two methods). -/

/-- The `MapView` struct (projection-relevant state). -/
structure MapView where
  projection : Projection
  centerSet : Bool
  width : ℤ
  height : ℤ
  radiusMiles : ℝ
  aspect : ℝ

/-- `MapView.SetCenterFromFirstAircraft`: if the center was already set,
return `false` without touching anything; otherwise recenter on the first
position-locked aircraft of the list and return `true`, or return `false`
unchanged when there is none.  The Go method returns a `bool` and mutates
the receiver; the model returns the pair. -/
noncomputable def MapView.SetCenterFromFirstAircraft (m : MapView)
    (aircraft : List Aircraft) : Bool × MapView :=
  if m.centerSet then (false, m)
  else
    match aircraft.find? (fun ac => ac.PositionLocked) with
    | some ac =>
      match ac.Latitude, ac.Longitude with
      | some la, some lo =>
        (true, { m with projection := m.projection.UpdateCenter (la : ℝ) (lo : ℝ)
                        centerSet := true })
      | _, _ => (false, m)
    | none => (false, m)

/-- `MapView.CenterOnAircraft`: no-op on a nil pointer or an unlocked
position, otherwise recenter and set the `centerSet` flag. -/
noncomputable def MapView.CenterOnAircraft (m : MapView)
    (ac : Option Aircraft) : MapView :=
  match ac with
  | none => m
  | some a =>
    match a.Latitude, a.Longitude with
    | some la, some lo =>
      { m with projection := m.projection.UpdateCenter (la : ℝ) (lo : ℝ)
               centerSet := true }
    | _, _ => m

/-! ## Concrete fixtures used by witness theorems -/

/-- A tracked aircraft with speed 200, used as an existing entry. -/
def acExisting : Aircraft :=
  { ICAO := "A1", FlightNumber := "UAL123", Latitude := some 40,
    Longitude := some (-100), Altitude := 35000, Speed := 200,
    Heading := 90, Track := 90, VerticalRate := 0, LastSeen := 0 }

/-- An incoming record for the same key with speed 0 (unset sentinel). -/
def acIncoming : Aircraft :=
  { ICAO := "A1", FlightNumber := "", Latitude := none, Longitude := none,
    Altitude := 0, Speed := 0, Heading := 0, Track := 0, VerticalRate := 0,
    LastSeen := 5 * nsPerSecond }

/-- A record with an empty ICAO key. -/
def acNoKey : Aircraft :=
  { ICAO := "", FlightNumber := "X", Latitude := some 1, Longitude := some 2,
    Altitude := 3, Speed := 4, Heading := 5, Track := 6, VerticalRate := 7,
    LastSeen := 8 }

/-- A one-entry tracker holding `acExisting` under its key. -/
def sampleTracker : Tracker := { aircraft := [("A1", acExisting)], timeout := 0 }

/-! ## Helper lemmas -/

/-- Replacing the value under a key that is present is visible to lookup. -/
theorem lookupAC_setAC (l : List (String × Aircraft)) (k : String)
    (v : Aircraft) (h : (lookupAC l k).isSome) :
    lookupAC (setAC l k v) k = some v := by
  induction l with
  | nil => simp [lookupAC] at h
  | cons e tl ih =>
    by_cases he : e.1 = k
    · simp [lookupAC, setAC, he]
    · have hee : (if e.1 = k then (k, v) else e) = e := if_neg he
      simp only [lookupAC, setAC, List.map_cons, hee]
      rw [List.find?_cons_of_neg _ (by simpa using he)]
      simp only [lookupAC, setAC] at ih
      apply ih
      simp only [lookupAC] at h
      rw [List.find?_cons_of_neg _ (by simpa using he)] at h
      exact h

/-- A list filtered by a predicate and by its negation partitions it. -/
theorem length_filter_not_add_length_filter (l : List (String × Aircraft))
    (p : String × Aircraft → Bool) :
    (l.filter (fun e => ! p e)).length + (l.filter p).length = l.length := by
  induction l with
  | nil => simp
  | cons x xs ih => by_cases h : p x <;> simp [h, List.filter] <;> omega

/-! ## Claim theorems -/

/-- C1.  For every tracked entry and every incoming record with the same
non-empty key, `Tracker.Update` merges field-wise with last-non-null-wins
semantics: each field of the existing entry is overwritten only if the
incoming record supplies a non-empty (string/pointer) or non-zero
(numeric) value; in particular an existing speed of 200 survives an
incoming speed of 0; the last-seen timestamp is always set to the incoming
record's timestamp. -/
theorem c1_update_merges_non_null_wins (t : Tracker) (key : String)
    (inc existing : Aircraft) (hkey : key ≠ "") (hicao : inc.ICAO = key)
    (hfound : lookupAC t.aircraft key = some existing) :
    lookupAC ((t.Update (some inc)).aircraft) key
        = some (mergeAircraft existing inc) ∧
    (mergeAircraft existing inc).LastSeen = inc.LastSeen ∧
    (mergeAircraft existing inc).FlightNumber
        = (if inc.FlightNumber ≠ "" then inc.FlightNumber
           else existing.FlightNumber) ∧
    (mergeAircraft existing inc).Latitude
        = (if inc.Latitude.isSome then inc.Latitude else existing.Latitude) ∧
    (mergeAircraft existing inc).Longitude
        = (if inc.Longitude.isSome then inc.Longitude
           else existing.Longitude) ∧
    (mergeAircraft existing inc).Altitude
        = (if inc.Altitude ≠ 0 then inc.Altitude else existing.Altitude) ∧
    (mergeAircraft existing inc).Speed
        = (if inc.Speed ≠ 0 then inc.Speed else existing.Speed) ∧
    (mergeAircraft existing inc).Heading
        = (if inc.Heading ≠ 0 then inc.Heading else existing.Heading) ∧
    (mergeAircraft existing inc).Track
        = (if inc.Track ≠ 0 then inc.Track else existing.Track) ∧
    (mergeAircraft existing inc).VerticalRate
        = (if inc.VerticalRate ≠ 0 then inc.VerticalRate
           else existing.VerticalRate) ∧
    (existing.Speed = 200 → inc.Speed = 0 →
      (mergeAircraft existing inc).Speed = 200) := by
  refine ⟨?_, rfl, rfl, rfl, rfl, rfl, rfl, rfl, rfl, rfl, ?_⟩
  · subst hicao
    simp only [Tracker.Update, if_neg hkey, hfound]
    exact lookupAC_setAC t.aircraft inc.ICAO _ (by rw [hfound]; rfl)
  · intro h1 h2
    simp [mergeAircraft, h1, h2]

/-- Witness for C1 at a concrete tracker: the incoming record with speed 0
and a fresh timestamp leaves the merged speed at 200. -/
theorem c1_update_merges_non_null_wins_witness :
    ("A1" : String) ≠ "" ∧ acIncoming.ICAO = "A1" ∧
    lookupAC sampleTracker.aircraft "A1" = some acExisting ∧
    lookupAC ((sampleTracker.Update (some acIncoming)).aircraft) "A1"
        = some (mergeAircraft acExisting acIncoming) ∧
    (mergeAircraft acExisting acIncoming).Speed = 200 ∧
    (mergeAircraft acExisting acIncoming).LastSeen = acIncoming.LastSeen := by
  have h := c1_update_merges_non_null_wins sampleTracker "A1" acIncoming
    acExisting (by decide) (by decide) (by decide)
  exact ⟨by decide, by decide, by decide, h.1,
    h.2.2.2.2.2.2.2.2.2.2 (by decide) (by decide), h.2.1⟩

/-- C8.  `Tracker.Update` on a nil record or a record whose ICAO key is
empty is a silent no-op: the tracker (in particular its entry map) is
unchanged. -/
theorem c8_update_empty_key_noop (t : Tracker) (ac : Option Aircraft)
    (h : ac = none ∨ ∃ a, ac = some a ∧ a.ICAO = "") :
    t.Update ac = t := by
  rcases h with h | ⟨a, rfl, ha⟩
  · subst h; rfl
  · simp [Tracker.Update, ha]

/-- Witness for C8: both the nil record and a concrete empty-key record
leave a concrete tracker untouched. -/
theorem c8_update_empty_key_noop_witness :
    (some acNoKey = none ∨ ∃ a, some acNoKey = some a ∧ a.ICAO = "") ∧
    sampleTracker.Update (some acNoKey) = sampleTracker ∧
    sampleTracker.Update none = sampleTracker := by
  refine ⟨Or.inr ⟨acNoKey, rfl, by decide⟩, ?_, ?_⟩
  · exact c8_update_empty_key_noop sampleTracker (some acNoKey)
      (Or.inr ⟨acNoKey, rfl, by decide⟩)
  · exact c8_update_empty_key_noop sampleTracker none (Or.inl rfl)

/-- C2.  `Tracker.PruneStale` at time `now` keeps exactly the entries whose
age is below the 60-second threshold (so removes exactly those with age
`≥ 60 s`), the number it returns plus the survivors account for every
entry, and an entry last seen at `T` is fresh at `T+59 s` and stale at
`T+60 s` and `T+61 s`. -/
theorem c2_prune_stale_threshold (t : Tracker) (now : ℤ) (key : String)
    (a : Aircraft) :
    ((key, a) ∈ (t.PruneStale now).1.aircraft ↔
      (key, a) ∈ t.aircraft ∧ now - a.LastSeen < 60 * nsPerSecond) ∧
    (t.PruneStale now).1.aircraft.length + (t.PruneStale now).2
      = t.aircraft.length ∧
    a.IsStale (a.LastSeen + 59 * nsPerSecond) = false ∧
    a.IsStale (a.LastSeen + 60 * nsPerSecond) = true ∧
    a.IsStale (a.LastSeen + 61 * nsPerSecond) = true := by
  refine ⟨?_, ?_, ?_, ?_, ?_⟩
  · rw [Tracker.PruneStale]
    simp only [List.mem_filter, Bool.not_eq_true']
    constructor
    · rintro ⟨hm, hs⟩
      refine ⟨hm, ?_⟩
      simp only [Aircraft.IsStale, decide_eq_false_iff_not, not_le] at hs
      exact hs
    · rintro ⟨hm, hs⟩
      refine ⟨hm, ?_⟩
      simp only [Aircraft.IsStale, decide_eq_false_iff_not, not_le]
      exact hs
  · exact length_filter_not_add_length_filter t.aircraft _
  · simp only [Aircraft.IsStale, nsPerSecond, decide_eq_false_iff_not, not_le]
    omega
  · simp only [Aircraft.IsStale, nsPerSecond, decide_eq_true_eq]
    omega
  · simp only [Aircraft.IsStale, nsPerSecond, decide_eq_true_eq]
    omega

/-- C9.  The timeout stored by `NewTracker` plays no part in eviction:
two trackers built with different timeouts but holding the same entries
prune identically, and an entry is kept by `PruneStale` exactly when its
age stays under the 60-second threshold hardcoded in `Aircraft.IsStale`. -/
theorem c9_prune_ignores_timeout (tm1 tm2 : ℤ)
    (entries : List (String × Aircraft)) (now : ℤ) (key : String)
    (a : Aircraft) :
    (({ NewTracker tm1 with aircraft := entries }).PruneStale now).1.aircraft
      = (({ NewTracker tm2 with aircraft := entries }).PruneStale now).1.aircraft ∧
    (({ NewTracker tm1 with aircraft := entries }).PruneStale now).2
      = (({ NewTracker tm2 with aircraft := entries }).PruneStale now).2 ∧
    ((key, a) ∈
        (({ NewTracker tm1 with aircraft := entries }).PruneStale now).1.aircraft
      ↔ (key, a) ∈ entries ∧ now - a.LastSeen < 60 * nsPerSecond) := by
  refine ⟨rfl, rfl, ?_⟩
  rw [Tracker.PruneStale]
  simp only [List.mem_filter, Bool.not_eq_true']
  constructor
  · rintro ⟨hm, hs⟩
    simp only [Aircraft.IsStale, decide_eq_false_iff_not, not_le] at hs
    exact ⟨hm, hs⟩
  · rintro ⟨hm, hs⟩
    refine ⟨hm, ?_⟩
    simp only [Aircraft.IsStale, decide_eq_false_iff_not, not_le]
    exact hs

/-- `Canvas.Set` never changes the width. -/
theorem width_Set (c : Canvas) (x y : ℤ) (ch : Char) (st : ℤ) :
    (c.Set x y ch st).width = c.width := by
  rw [Canvas.Set]; split <;> rfl

/-- `Canvas.Set` never changes the height. -/
theorem height_Set (c : Canvas) (x y : ℤ) (ch : Char) (st : ℤ) :
    (c.Set x y ch st).height = c.height := by
  rw [Canvas.Set]; split <;> rfl

/-- Reading a canvas after a `Set`: the written cell if the write landed in
bounds at the read position, the old cell otherwise. -/
theorem Get_Set (c : Canvas) (x y : ℤ) (ch : Char) (st : ℤ) (i j : ℤ) :
    (c.Set x y ch st).Get i j =
      if 0 ≤ x ∧ x < c.width ∧ 0 ≤ y ∧ y < c.height ∧ i = x ∧ j = y then
        ⟨ch, st⟩
      else c.Get i j := by
  rw [Canvas.Set, Canvas.Get, Canvas.Get]
  split_ifs <;> simp_all

/-- C4.  `Canvas.Set` at any out-of-bounds coordinate is a no-op: the
canvas, every cell included, is identical afterwards; in particular
`Set (-5) (-5)` and `Set (width+5) (height+5)` never change a canvas. -/
theorem c4_set_out_of_bounds_noop (c : Canvas) (x y : ℤ) (ch : Char)
    (st : ℤ) (h : x < 0 ∨ c.width ≤ x ∨ y < 0 ∨ c.height ≤ y) :
    c.Set x y ch st = c ∧
    c.Set (-5) (-5) ch st = c ∧
    c.Set (c.width + 5) (c.height + 5) ch st = c := by
  refine ⟨?_, ?_, ?_⟩ <;> · rw [Canvas.Set]; rw [if_neg (by omega)]

/-- Witness for C4 on a concrete 3×3 canvas. -/
theorem c4_set_out_of_bounds_noop_witness :
    ((-5 : ℤ) < 0 ∨ (NewCanvas 3 3).width ≤ -5 ∨ (-5 : ℤ) < 0 ∨
      (NewCanvas 3 3).height ≤ -5) ∧
    (NewCanvas 3 3).Set (-5) (-5) 'x' 0 = NewCanvas 3 3 ∧
    (NewCanvas 3 3).Set ((NewCanvas 3 3).width + 5)
      ((NewCanvas 3 3).height + 5) 'x' 0 = NewCanvas 3 3 := by
  have h := c4_set_out_of_bounds_noop (NewCanvas 3 3) (-5) (-5) 'x' 0
    (Or.inl (by norm_num))
  exact ⟨Or.inl (by norm_num), h.2.1, h.2.2⟩

/-- Unfolding `DrawLine` on the concrete horizontal segment `(0,0)–(4,0)`:
the Bresenham loop performs exactly the five writes `(0,0) … (4,0)`. -/
theorem drawLine_horizontal (c : Canvas) (st : ℤ) :
    DrawLine c 0 0 4 0 'x' st =
      ((((c.Set 0 0 'x' st).Set 1 0 'x' st).Set 2 0 'x' st).Set 3 0 'x'
        st).Set 4 0 'x' st := by
  rfl

/-- Every write of the Bresenham loop uses the same symbol and style, so a
cell already holding that symbol keeps it. -/
theorem bresenhamLoop_preserves (fuel : ℕ) (c : Canvas)
    (x0 y0 x1 y1 dx dy sx sy err : ℤ) (ch : Char) (st : ℤ) (a b : ℤ)
    (h : c.Get a b = ⟨ch, st⟩) :
    (bresenhamLoop fuel c x0 y0 x1 y1 dx dy sx sy err ch st).Get a b
      = ⟨ch, st⟩ := by
  induction fuel generalizing c x0 y0 err with
  | zero => exact h
  | succ n ih =>
    rw [bresenhamLoop]
    have hset : (c.Set x0 y0 ch st).Get a b = ⟨ch, st⟩ := by
      rw [Get_Set]; split_ifs <;> simp [h]
    split
    · exact hset
    · exact ih _ _ _ _ hset

/-- The first iteration of the Bresenham loop writes the starting cell, and
that write survives the rest of the loop. -/
theorem drawLine_start_endpoint (c : Canvas) (x0 y0 x1 y1 : ℤ) (ch : Char)
    (st : ℤ) (h0 : 0 ≤ x0) (h1 : x0 < c.width) (h2 : 0 ≤ y0)
    (h3 : y0 < c.height) :
    (DrawLine c x0 y0 x1 y1 ch st).Get x0 y0 = ⟨ch, st⟩ := by
  rw [DrawLine]
  rw [bresenhamLoop]
  have hset : (c.Set x0 y0 ch st).Get x0 y0 = ⟨ch, st⟩ := by
    rw [Get_Set]; rw [if_pos ⟨h0, h1, h2, h3, rfl, rfl⟩]
  split
  · exact hset
  · exact bresenhamLoop_preserves _ _ _ _ _ _ _ _ _ _ _ _ _ _ _ hset

/-- C5.  On a cleared canvas at least 5 cells wide and 1 tall,
`DrawLine (0,0)–(4,0)` with symbol `'x'` sets exactly the five cells
`(0,0) … (4,0)` and changes no other cell; and in general the Bresenham
loop emits the symbol into the starting endpoint (every stepped cell
receives the symbol as it is stepped). -/
theorem c5_drawline_bresenham (w h st x y : ℤ) (hw : 5 ≤ w) (hh : 1 ≤ h) :
    ((DrawLine (NewCanvas w h) 0 0 4 0 'x' st).Get x y =
      if 0 ≤ x ∧ x ≤ 4 ∧ y = 0 then ⟨'x', st⟩
      else (NewCanvas w h).Get x y) ∧
    (∀ (c : Canvas) (x0 y0 x1 y1 : ℤ) (ch : Char) (st2 : ℤ),
      0 ≤ x0 → x0 < c.width → 0 ≤ y0 → y0 < c.height →
      (DrawLine c x0 y0 x1 y1 ch st2).Get x0 y0 = ⟨ch, st2⟩) := by
  constructor
  · rw [drawLine_horizontal]
    rw [Get_Set, Get_Set, Get_Set, Get_Set, Get_Set]
    simp only [width_Set, height_Set, NewCanvas]
    split_ifs <;> first | rfl | (exfalso; omega)
  · intro c x0 y0 x1 y1 ch st2 h0 h1 h2 h3
    exact drawLine_start_endpoint c x0 y0 x1 y1 ch st2 h0 h1 h2 h3

/-- Witness for C5 on the concrete 5×1 canvas: the midpoint of the segment
holds the symbol and an off-segment probe is blank. -/
theorem c5_drawline_bresenham_witness :
    (5 : ℤ) ≤ 5 ∧ (1 : ℤ) ≤ 1 ∧
    ((DrawLine (NewCanvas 5 1) 0 0 4 0 'x' 0).Get 2 0 =
      if (0 : ℤ) ≤ 2 ∧ (2 : ℤ) ≤ 4 ∧ (0 : ℤ) = 0 then ⟨'x', 0⟩
      else (NewCanvas 5 1).Get 2 0) := by
  exact ⟨le_refl 5, le_refl 1,
    (c5_drawline_bresenham 5 1 0 2 0 (le_refl 5) (le_refl 1)).1⟩

/-- C6.  A city's label is suppressed exactly when some visible airport
projects to the same grid row with `|Δcol| ≤ 5`, or to a row with
`|Δrow| ≤ 1` and `|Δcol| ≤ 3`; airports are always drawn with their own
`'@'` symbol regardless of cities.  In particular a city at `(10,5)` with
an airport at `(12,5)` has its label suppressed, while a city at `(30,5)`
with an airport at `(10,5)` is drawn together with the airport and its
label. -/
theorem c6_city_label_suppression :
    (∀ (c : ℤ × ℤ) (aps : List (ℤ × ℤ)),
      skipCity c aps = true ↔
        ∃ a ∈ aps, (a.2 = c.2 ∧ |a.1 - c.1| ≤ 5) ∨
          (|a.2 - c.2| ≤ 1 ∧ |a.1 - c.1| ≤ 3)) ∧
    (∀ (cities airports : List PointFeat) (width : ℤ) (ap : PointFeat),
      ap ∈ airports →
      DrawOp.set ap.pos.1 ap.pos.2 '@'
        ∈ renderCitiesAndAirports cities airports width) ∧
    (DrawOp.text 10 5 "Springfield" ∉
      renderCitiesAndAirports [⟨(10, 5), "Springfield"⟩]
        [⟨(12, 5), "APT"⟩] 80) ∧
    (DrawOp.text 30 5 "Springfield" ∈
      renderCitiesAndAirports [⟨(30, 5), "Springfield"⟩]
        [⟨(10, 5), "APT"⟩] 80) ∧
    (DrawOp.set 10 5 '@' ∈
      renderCitiesAndAirports [⟨(30, 5), "Springfield"⟩]
        [⟨(10, 5), "APT"⟩] 80) ∧
    (DrawOp.text 11 5 "APT" ∈
      renderCitiesAndAirports [⟨(30, 5), "Springfield"⟩]
        [⟨(10, 5), "APT"⟩] 80) := by
  refine ⟨?_, ?_, by decide, by decide, by decide, by decide⟩
  · intro c aps
    simp [skipCity, List.any_eq_true]
  · intro cities airports width ap hap
    rw [renderCitiesAndAirports]
    apply List.mem_append_right
    rw [List.mem_flatten]
    refine ⟨_, List.mem_map_of_mem _ hap, List.mem_cons_self _ _⟩

/-- Witness for C6's universally-quantified airport conjunct at a concrete
configuration. -/
theorem c6_city_label_suppression_witness :
    (⟨(12, 5), "APT"⟩ : PointFeat) ∈ ([⟨(12, 5), "APT"⟩] : List PointFeat) ∧
    DrawOp.set 12 5 '@'
      ∈ renderCitiesAndAirports [] [⟨(12, 5), "APT"⟩] 80 := by
  exact ⟨List.mem_cons_self _ _,
    c6_city_label_suppression.2.1 [] [⟨(12, 5), "APT"⟩] 80 ⟨(12, 5), "APT"⟩
      (List.mem_cons_self _ _)⟩

/-- The Go `%` truncated remainder followed by the negative fix-up equals
the mathematical modulus into `[0, 360)`. -/
theorem tmod_fixup_eq_emod (d : ℤ) :
    (if d.tmod 360 < 0 then d.tmod 360 + 360 else d.tmod 360) = d % 360 := by
  have hdef : d.tmod 360 = d - 360 * d.tdiv 360 := by
    have := Int.tmod_add_tdiv d 360; omega
  have hub : d.tmod 360 < 360 := Int.tmod_lt_of_pos d (by norm_num)
  have hlb : -360 < d.tmod 360 := by
    rcases le_or_lt 0 d with h | h
    · have := Int.tmod_nonneg 360 h; omega
    · have h1 : (-d).tmod 360 < 360 := Int.tmod_lt_of_pos _ (by norm_num)
      have h2 : (-d).tmod 360 = -(d.tmod 360) := by
        rw [Int.tmod_def, Int.tmod_def, Int.neg_tdiv]; ring
      omega
  generalize hk : d.tdiv 360 = k at hdef
  omega

/-- The normalized direction is the mathematical modulus of the derived
angle. -/
theorem normalizeDirection_eq_emod (track heading : ℤ) :
    normalizeDirection track heading
      = (if track ≠ 0 then track else heading) % 360 := by
  rw [normalizeDirection]
  by_cases ht : track = 0
  · by_cases hh : heading = 0
    · simp only [ht, hh]
      exact tmod_fixup_eq_emod 0
    · simp only [ht, hh, ne_eq, not_true_eq_false, false_and, not_false_eq_true,
        and_true, if_true, if_false]
      exact tmod_fixup_eq_emod heading
  · simp only [ht, ne_eq, not_false_eq_true, false_and, if_false, if_true]
    exact tmod_fixup_eq_emod track

/-- C7.  `CardinalDirection` derives the angle from `Track` when non-zero
and otherwise from `Heading`, normalizes it into `[0, 360)`, and maps the
eight 45°-wide arcs with integer boundaries
`[338,360)∪[0,23), [23,68), [68,113), [113,158), [158,203), [203,248),
[248,293), [293,338)` to the eight fixed symbols; zero track and zero
heading yield `'^'`, the symbol of due north. -/
theorem c7_cardinal_direction :
    (∀ track heading : ℤ,
      cardinalDirection track heading = cardinalDirectionSpec track heading) ∧
    (∀ track heading : ℤ,
      0 ≤ normalizeDirection track heading ∧
      normalizeDirection track heading < 360) ∧
    cardinalDirection 0 0 = '^' := by
  refine ⟨?_, ?_, by decide⟩
  · intro track heading
    rw [cardinalDirection, cardinalDirectionSpec, normalizeDirection_eq_emod]
    have h0 : 0 ≤ (if track ≠ 0 then track else heading) % 360 :=
      Int.emod_nonneg _ (by norm_num)
    have h1 : (if track ≠ 0 then track else heading) % 360 < 360 :=
      Int.emod_lt_of_pos _ (by norm_num)
    generalize (if track ≠ 0 then track else heading) % 360 = d at h0 h1
    by_cases hA : 338 ≤ d
    · rw [if_pos (Or.inl hA), if_pos hA]
    rw [if_neg hA]
    by_cases hB : d < 23
    · rw [if_pos (Or.inr hB), if_pos hB]
    rw [if_neg (show ¬(338 ≤ d ∨ d < 23) by omega), if_neg hB]
    by_cases hC : d < 68
    · rw [if_pos (show 23 ≤ d ∧ d < 68 by omega), if_pos hC]
    rw [if_neg (show ¬(23 ≤ d ∧ d < 68) by omega), if_neg hC]
    by_cases hD : d < 113
    · rw [if_pos (show 68 ≤ d ∧ d < 113 by omega), if_pos hD]
    rw [if_neg (show ¬(68 ≤ d ∧ d < 113) by omega), if_neg hD]
    by_cases hE : d < 158
    · rw [if_pos (show 113 ≤ d ∧ d < 158 by omega), if_pos hE]
    rw [if_neg (show ¬(113 ≤ d ∧ d < 158) by omega), if_neg hE]
    by_cases hF : d < 203
    · rw [if_pos (show 158 ≤ d ∧ d < 203 by omega), if_pos hF]
    rw [if_neg (show ¬(158 ≤ d ∧ d < 203) by omega), if_neg hF]
    by_cases hG : d < 248
    · rw [if_pos (show 203 ≤ d ∧ d < 248 by omega), if_pos hG]
    rw [if_neg (show ¬(203 ≤ d ∧ d < 248) by omega), if_neg hG]
    by_cases hH : d < 293
    · rw [if_pos (show 248 ≤ d ∧ d < 293 by omega), if_pos hH]
    rw [if_neg (show ¬(248 ≤ d ∧ d < 293) by omega), if_neg hH]
    rw [if_pos (show 293 ≤ d ∧ d < 338 by omega)]
  · intro track heading
    rw [normalizeDirection_eq_emod]
    exact ⟨Int.emod_nonneg _ (by norm_num), Int.emod_lt_of_pos _ (by norm_num)⟩

/-- Go's float-to-int truncation moves a real by at most one. -/
theorem truncToInt_sub_le (x : ℝ) : |((truncToInt x : ℤ) : ℝ) - x| ≤ 1 := by
  rw [truncToInt]
  split
  · have h1 := Int.floor_le x
    have h2 := Int.lt_floor_add_one x
    rw [abs_le]
    constructor <;> push_cast at * <;> linarith
  · have h1 := Int.le_ceil x
    have h2 := Int.ceil_lt_add_one x
    rw [abs_le]
    constructor <;> push_cast at * <;> linarith

/-- For a valid configuration (positive radius, grid and aspect, center
latitude away from the poles) both scale factors computed by
`calculateScale` are positive. -/
theorem calculateScale_pos (clat r : ℝ) (w h : ℤ) (aspect : ℝ)
    (hr : 0 < r) (hw : 0 < w) (hh : 0 < h) (ha : 0 < aspect)
    (hclat : |clat| < 90) :
    0 < (calculateScale clat r w h aspect).1 ∧
    0 < (calculateScale clat r w h aspect).2 := by
  have hcos : 0 < Real.cos (clat * Real.pi / 180) := by
    apply Real.cos_pos_of_mem_Ioo
    rw [abs_lt] at hclat
    have hp := Real.pi_pos
    constructor <;> nlinarith
  have hsX : 0 < (w : ℝ) / (r / (69 * Real.cos (clat * Real.pi / 180)) * 2) :=
    div_pos (by exact_mod_cast hw)
      (mul_pos (div_pos hr (by positivity)) (by norm_num))
  have hsY : 0 < (h : ℝ) * aspect / (r / 69 * 2) :=
    div_pos (mul_pos (by exact_mod_cast hh) ha)
      (mul_pos (div_pos hr (by norm_num)) (by norm_num))
  unfold calculateScale
  dsimp only
  split_ifs with hlt
  · exact ⟨hsX, div_pos hsX ha⟩
  · exact ⟨mul_pos hsY ha, hsY⟩

/-- Round trip through `Project` then `Unproject` for any projection with
positive scales: the recovered coordinate is within one cell's angular
resolution of the original. -/
theorem unproject_project_close (p : Projection) (lat lon : ℝ)
    (hx : 0 < p.scaleX) (hy : 0 < p.scaleY) :
    |(p.Unproject (p.Project lat lon).1 (p.Project lat lon).2).1 - lat|
      ≤ 1 / p.scaleY ∧
    |(p.Unproject (p.Project lat lon).1 (p.Project lat lon).2).2 - lon|
      ≤ 1 / p.scaleX := by
  have hx0 : p.scaleX ≠ 0 := ne_of_gt hx
  have hy0 : p.scaleY ≠ 0 := ne_of_gt hy
  unfold Projection.Project Projection.Unproject
  dsimp only
  constructor
  · have e1 : (((truncToInt (-(lat - p.centerLat) * p.scaleY)
        + p.screenHeight.tdiv 2 - p.screenHeight.tdiv 2 : ℤ)) : ℝ)
        = ((truncToInt (-(lat - p.centerLat) * p.scaleY) : ℤ) : ℝ) := by
      push_cast
      ring
    rw [e1]
    have e2 : p.centerLat
          + -((truncToInt (-(lat - p.centerLat) * p.scaleY) : ℤ) : ℝ) / p.scaleY
          - lat
        = (-(lat - p.centerLat) * p.scaleY
            - ((truncToInt (-(lat - p.centerLat) * p.scaleY) : ℤ) : ℝ))
          / p.scaleY := by
      field_simp
      ring
    rw [e2, abs_div, abs_of_pos hy]
    gcongr
    rw [abs_sub_comm]
    exact truncToInt_sub_le _
  · have e1 : (((truncToInt ((lon - p.centerLon) * p.scaleX)
        + p.screenWidth.tdiv 2 - p.screenWidth.tdiv 2 : ℤ)) : ℝ)
        = ((truncToInt ((lon - p.centerLon) * p.scaleX) : ℤ) : ℝ) := by
      push_cast
      ring
    rw [e1]
    have e2 : p.centerLon
          + ((truncToInt ((lon - p.centerLon) * p.scaleX) : ℤ) : ℝ) / p.scaleX
          - lon
        = (((truncToInt ((lon - p.centerLon) * p.scaleX) : ℤ) : ℝ)
            - (lon - p.centerLon) * p.scaleX) / p.scaleX := by
      field_simp
      ring
    rw [e2, abs_div, abs_of_pos hx]
    gcongr
    exact truncToInt_sub_le _

/-- C3.  For every valid configuration (positive radius, grid dimensions
and aspect ratio, center latitude away from the poles) and every
coordinate, `Unproject (Project (lat, lon))` recovers the coordinate to
within one grid cell's angular resolution: at most `1/scaleY` degrees of
latitude and `1/scaleX` degrees of longitude (in particular for every
coordinate within the visible bounds). -/
theorem c3_projection_roundtrip (clat clon r : ℝ) (w h : ℤ)
    (aspect lat lon : ℝ) (hr : 0 < r) (hw : 0 < w) (hh : 0 < h)
    (ha : 0 < aspect) (hclat : |clat| < 90) :
    |((NewProjection clat clon r w h aspect).Unproject
        ((NewProjection clat clon r w h aspect).Project lat lon).1
        ((NewProjection clat clon r w h aspect).Project lat lon).2).1 - lat|
      ≤ 1 / (NewProjection clat clon r w h aspect).scaleY ∧
    |((NewProjection clat clon r w h aspect).Unproject
        ((NewProjection clat clon r w h aspect).Project lat lon).1
        ((NewProjection clat clon r w h aspect).Project lat lon).2).2 - lon|
      ≤ 1 / (NewProjection clat clon r w h aspect).scaleX := by
  have hs := calculateScale_pos clat r w h aspect hr hw hh ha hclat
  exact unproject_project_close (NewProjection clat clon r w h aspect)
    lat lon hs.1 hs.2

/-- Witness for C3 at a concrete configuration centered on the equator. -/
theorem c3_projection_roundtrip_witness :
    (0 : ℝ) < 69 ∧ (0 : ℤ) < 10 ∧ (0 : ℝ) < 2 ∧ |(0 : ℝ)| < 90 ∧
    (|((NewProjection 0 0 69 10 10 2).Unproject
        ((NewProjection 0 0 69 10 10 2).Project 1 1).1
        ((NewProjection 0 0 69 10 10 2).Project 1 1).2).1 - 1|
      ≤ 1 / (NewProjection 0 0 69 10 10 2).scaleY ∧
     |((NewProjection 0 0 69 10 10 2).Unproject
        ((NewProjection 0 0 69 10 10 2).Project 1 1).1
        ((NewProjection 0 0 69 10 10 2).Project 1 1).2).2 - 1|
      ≤ 1 / (NewProjection 0 0 69 10 10 2).scaleX) :=
  ⟨by norm_num, by norm_num, by norm_num, by norm_num,
   c3_projection_roundtrip 0 0 69 10 10 2 1 1 (by norm_num) (by norm_num)
     (by norm_num) (by norm_num) (by norm_num)⟩

/-- C10.  `SetCenterFromFirstAircraft` recenters at most once: once the
`centerSet` flag is up (after a successful `SetCenterFromFirstAircraft` or
a `CenterOnAircraft` on a position-locked aircraft), every call returns
`false` and leaves the whole view — projection included — unchanged, for
any aircraft list; a call with no position-locked aircraft in the list
also returns `false` and changes nothing. -/
theorem c10_center_set_once (m : MapView) (acs : List Aircraft)
    (a : Aircraft) :
    (m.centerSet = true → m.SetCenterFromFirstAircraft acs = (false, m)) ∧
    ((∀ ac ∈ acs, ac.PositionLocked = false) →
      m.SetCenterFromFirstAircraft acs = (false, m)) ∧
    (a.PositionLocked = true →
      (m.CenterOnAircraft (some a)).centerSet = true) ∧
    ((m.SetCenterFromFirstAircraft acs).1 = true →
      (m.SetCenterFromFirstAircraft acs).2.centerSet = true) := by
  refine ⟨?_, ?_, ?_, ?_⟩
  · intro h
    rw [MapView.SetCenterFromFirstAircraft, if_pos h]
  · intro h
    rw [MapView.SetCenterFromFirstAircraft]
    have hnone : acs.find? (fun ac => ac.PositionLocked) = none := by
      rw [List.find?_eq_none]
      intro x hx
      simp [h x hx]
    rw [hnone]
    split <;> rfl
  · intro h
    rw [Aircraft.PositionLocked, Bool.and_eq_true, Option.isSome_iff_exists,
      Option.isSome_iff_exists] at h
    obtain ⟨⟨la, hla⟩, ⟨lo, hlo⟩⟩ := h
    rw [MapView.CenterOnAircraft]
    rw [hla, hlo]
  · rw [MapView.SetCenterFromFirstAircraft]
    split
    · intro h
      simp at h
    · split
      · next ac heq =>
        rcases ac.Latitude with _ | la <;> rcases ac.Longitude with _ | lo <;>
          intro h <;> simp_all
      · intro h
        simp at h

/-- Witness for C10: a concrete map view with the flag already set is
untouched by a further recentering attempt. -/
theorem c10_center_set_once_witness :
    ({ projection := ⟨0, 0, 0, 0, 0, 0, 0, 0⟩, centerSet := true, width := 0,
       height := 0, radiusMiles := 0, aspect := 0 } : MapView).centerSet
      = true ∧
    ({ projection := ⟨0, 0, 0, 0, 0, 0, 0, 0⟩, centerSet := true, width := 0,
       height := 0, radiusMiles := 0, aspect := 0 } :
        MapView).SetCenterFromFirstAircraft [acExisting]
      = (false,
         { projection := ⟨0, 0, 0, 0, 0, 0, 0, 0⟩, centerSet := true,
           width := 0, height := 0, radiusMiles := 0, aspect := 0 }) :=
  ⟨rfl,
   (c10_center_set_once
     { projection := ⟨0, 0, 0, 0, 0, 0, 0, 0⟩, centerSet := true, width := 0,
       height := 0, radiusMiles := 0, aspect := 0 } [acExisting]
     acExisting).1 rfl⟩

end Ascii1090
